import Mathlib

/-!
Verification development for the PlexMusicRatingsSync reconciliation engine
(`src/plex_music_ratings_sync/sync.py`).

The Python module is shallowly embedded below:
* ratings are modelled as `Option Int` (a Python float or `None`; only
  equality is ever used, so `Int` is an adequate carrier),
* file modification times are modelled as `Int`,
* the mtime-keyed rating cache (a Python dict) is an association list
  `List (String × CacheEntry)`,
* the surrounding world (remote catalog ratings, local files, cache, dirty
  flag, persisted cache file, change log, log lines) is an explicit state
  record threaded through the functions,
* each place where the Python code can raise or catch an exception is
  driven by an explicit fault-injection record `Faults`, and an
  uncaught exception shows up as a `raised := true` result.
-/

namespace PlexSync

/-- The three processing modes of `_process_item` / `_process_libraries`
(the Python strings `"sync"`, `"import"`, `"export"`; `import` and
`export` are Lean keywords, hence the short constructor names). -/
inductive Mode
  | sync
  | imp
  | exp
deriving DecidableEq

/-- The action `_process_item` decides on for one track: do nothing, write
the remote (Plex) rating, or write the local file tag.  The payload is the
(present) rating value that is written, carried as the `Option` value that
the Python code passes to `set_rating_to_plex` / `set_rating_to_file`. -/
inductive Action
  | noop
  | writeRemote (v : Option Int)
  | writeLocal (v : Option Int)
deriving DecidableEq

/-- The decision structure of `_process_item` (sync.py lines 170-219),
with the side effects stripped: the same `if/elif` chain over the mode and
the two optional ratings, returning which write (if any) is performed.
`plex_rating` is the remote rating `R`, `file_rating` the local rating `L`;
Python `!=` on optionals is `Option` disequality (`None != x` iff
`x is not None`). -/
def decideAction (mode : Mode) (plex_rating file_rating : Option Int) : Action :=
  if mode = Mode.imp ∧ file_rating ≠ none then
    if plex_rating ≠ file_rating then Action.writeRemote file_rating
    else Action.noop
  else if mode = Mode.exp ∧ plex_rating ≠ none then
    if file_rating ≠ plex_rating then Action.writeLocal plex_rating
    else Action.noop
  else if mode = Mode.sync then
    if plex_rating ≠ file_rating then
      if plex_rating ≠ none then Action.writeLocal plex_rating
      else if file_rating ≠ none then Action.writeRemote file_rating
      else Action.noop
    else Action.noop
  else Action.noop

/-- Modelled from the spec: the decision table of spec §4.2, row by row
(`R` = remote rating, `L` = local rating).  This definition follows the
spec's words, to be compared with `decideAction`, which follows the code. -/
def specAction : Mode → Option Int → Option Int → Action
  | Mode.imp, R, some l => if R ≠ some l then Action.writeRemote (some l) else Action.noop
  | Mode.imp, _, none => Action.noop
  | Mode.exp, some r, L => if L ≠ some r then Action.writeLocal (some r) else Action.noop
  | Mode.exp, none, _ => Action.noop
  | Mode.sync, R, L =>
    if R = L then Action.noop
    else
      match R, L with
      | some r, _ => Action.writeLocal (some r)
      | none, some l => Action.writeRemote (some l)
      | none, none => Action.noop

/-- One log line, tagged with the logger function that produced it
(`log_info` / `log_warning` / `log_debug` / `log_error`). -/
inductive LogEntry
  | info (msg : String)
  | warning (msg : String)
  | debug (msg : String)
  | error (msg : String)
deriving DecidableEq

/-- The JSON values needed for the cache persistence format (numbers are
carried as `Int`, standing in for Python floats, of which only equality is
used). -/
inductive Json
  | null
  | num (n : Int)
  | obj (fields : List (String × Json))

/-- One value of the `_file_rating_cache` dict: the file's last-seen
modification time and last-known rating (possibly `None`). -/
structure CacheEntry where
  mtime : Int
  rating : Option Int
deriving DecidableEq

/-- A local audio file as seen by the code: its current modification time
(`Path.stat().st_mtime`) and the rating in its tag metadata
(`get_rating_from_file` / `set_rating_to_file`). -/
structure LocalFile where
  mtime : Int
  rating : Option Int
deriving DecidableEq

/-- One Plex track item, reduced to what `_process_item` reads from it: a
key identifying the remote item (used by `get_rating_from_plex` /
`set_rating_to_plex`), its title, and the local file path
`item.media[0].parts[0].file`. -/
structure Track where
  id : Nat
  title : String
  path : String
deriving DecidableEq

/-- The exception raised by `file_path.stat()`:
`FileNotFoundError` is caught by `_process_item`, anything else is not. -/
inductive StatErr
  | fileNotFound
  | other
deriving DecidableEq

/-- Fault injection for one `_process_item` call: which of the fallible
operations raise.  `statFail` drives the `file_path.stat()` after the
existence check; `remoteWriteFail` makes `set_rating_to_plex` raise;
`localWriteFail` makes `set_rating_to_file` raise; `restatFail` makes the
post-write `file_path.stat()` raise. -/
structure Faults where
  statFail : Option StatErr := none
  remoteWriteFail : Bool := false
  localWriteFail : Bool := false
  restatFail : Bool := false
deriving DecidableEq

/-- The fault-free environment: every stat and write succeeds. -/
def noFaults : Faults := {}

/-- The full mutable state the sync module touches: the remote catalog
(`item id → rating`), the local files (`path → file`, `none` = the file
does not exist), the in-memory rating cache `_file_rating_cache` with its
`_cache_dirty` flag, the persisted cache file `rating_cache.json`
(`disk`), the run's change log `self.updated_tracks`, and the log
output. -/
structure World where
  remote : Nat → Option Int
  files : String → Option LocalFile
  cache : List (String × CacheEntry)
  cacheDirty : Bool
  disk : Option Json
  updatedTracks : List String
  logs : List LogEntry

/-- Point update of the remote catalog (`set_rating_to_plex`). -/
def setRemote (g : Nat → Option Int) (i : Nat) (v : Option Int) : Nat → Option Int :=
  fun j => if j = i then v else g j

/-- Point update of the local files (`set_rating_to_file` plus the mtime
change the write causes). -/
def setFile (g : String → Option LocalFile) (p : String) (v : Option LocalFile) :
    String → Option LocalFile :=
  fun q => if q = p then v else g q

/-- Dict lookup `_file_rating_cache.get(path)`. -/
def lookupEntry : List (String × CacheEntry) → String → Option CacheEntry
  | [], _ => none
  | (q, e) :: rest, p => if q = p then some e else lookupEntry rest p

/-- Dict assignment `_file_rating_cache[path] = entry` (replace in place if
the key is present, else append, as a Python dict does). -/
def insertEntry : List (String × CacheEntry) → String → CacheEntry → List (String × CacheEntry)
  | [], p, e => [(p, e)]
  | (q, e0) :: rest, p, e =>
    if q = p then (p, e) :: rest else (q, e0) :: insertEntry rest p e

/-- Dict deletion `del _file_rating_cache[path]` (guarded in the code by an
`in` check, so deleting an absent key is a no-op here as there). -/
def eraseEntry : List (String × CacheEntry) → String → List (String × CacheEntry)
  | [], _ => []
  | (q, e0) :: rest, p =>
    if q = p then rest else (q, e0) :: eraseEntry rest p

/-- `json.dump` of one cache entry: the object
`{"mtime": <number>, "rating": <number|null>}`. -/
def encodeEntry (e : CacheEntry) : Json :=
  Json.obj [("mtime", Json.num e.mtime),
            ("rating", match e.rating with
                       | none => Json.null
                       | some r => Json.num r)]

/-- `json.dump(_file_rating_cache)`: one JSON object mapping each path to
its encoded entry. -/
def encodeCache (c : List (String × CacheEntry)) : Json :=
  Json.obj (c.map (fun pe => (pe.1, encodeEntry pe.2)))

/-- `json.load` of one rating field: a number or `null`. -/
def decodeRating : Json → Option (Option Int)
  | Json.null => some none
  | Json.num n => some (some n)
  | _ => none

/-- `json.load` of one cache entry object. -/
def decodeEntry : Json → Option CacheEntry
  | Json.obj [("mtime", Json.num m), ("rating", rj)] =>
    (decodeRating rj).map (fun r => { mtime := m, rating := r })
  | _ => none

/-- `json.load` of the object's fields, entry by entry. -/
def decodeFields : List (String × Json) → Option (List (String × CacheEntry))
  | [] => some []
  | (p, j) :: rest =>
    match decodeEntry j, decodeFields rest with
    | some e, some m => some ((p, e) :: m)
    | _, _ => none

/-- `json.load(f)` of the whole cache file. -/
def decodeCache : Json → Option (List (String × CacheEntry))
  | Json.obj fields => decodeFields fields
  | _ => none

/-- `save_cache` (sync.py lines 65-77): if `_cache_dirty`, serialize the
full in-memory mapping to the cache file and clear the flag; on an I/O
error (`ioFail`), log and swallow the exception, leaving the flag set and
the file as it was; if the cache is clean, do nothing.  The function is
total — a failing flush never propagates an exception to the caller. -/
def save_cache (ioFail : Bool) (w : World) : World :=
  if w.cacheDirty then
    if ioFail then
      { w with logs := w.logs ++ [LogEntry.error "Failed to save cache"] }
    else
      { w with disk := some (encodeCache w.cache), cacheDirty := false }
  else w

/-- `load_cache` (sync.py lines 52-63): read the persisted cache file;
missing file → empty mapping; parse failure → log an error and use the
empty mapping; otherwise the parsed mapping.  Returns the mapping
`_file_rating_cache` together with the log lines produced. -/
def load_cache (disk : Option Json) : List (String × CacheEntry) × List LogEntry :=
  match disk with
  | some j =>
    match decodeCache j with
    | some m => (m, [LogEntry.info "Loaded rating cache"])
    | none => ([], [LogEntry.error "Failed to load cache"])
  | none => ([], [LogEntry.info "No cache found, starting fresh."])

/-- The supported audio extensions `_SUPPORTED_EXTENSIONS`. -/
def _SUPPORTED_EXTENSIONS : List String :=
  [".flac", ".m4a", ".mp3", ".ogg", ".opus", ".aif", ".aiff"]

/-- Longest prefix of a character list not containing a character
satisfying `p` (helper for extracting path components). -/
def takeUntil (p : Char → Bool) : List Char → List Char
  | [] => []
  | c :: rest => if p c then [] else c :: takeUntil p rest

/-- `file_path.suffix.lower()`: the (lower-cased) extension of the path's
final component, including the leading dot, `""` when the name has no
dot.  Implemented over the character list so that it reduces in the
kernel. -/
def suffixLower (path : String) : String :=
  let revName := takeUntil (fun c => c = '/') path.data.reverse
  if revName.contains '.' then
    String.mk ('.' :: ((takeUntil (fun c => c = '.') revName).reverse.map Char.toLower))
  else ""

/-- Rendering of an optional rating inside a change message (Python's
string formatting of a float or `None`). -/
def fmtRating : Option Int → String
  | none => "None"
  | some v => toString v

/-- The result of the cache block of `_process_item` (sync.py lines
144-162): the local rating that the rest of the function uses, the cache
and dirty flag afterwards, and whether the local tag codec
(`get_rating_from_file`) was invoked. -/
structure CacheStepResult where
  file_rating : Option Int
  cache : List (String × CacheEntry)
  dirty : Bool
  codecInvoked : Bool
deriving DecidableEq

/-- The cache block of `_process_item` (sync.py lines 144-162): a cache
entry whose stored mtime equals the file's current mtime is a hit and is
used as-is; otherwise the rating is read live from the file (`live`) and
the entry is overwritten with the current mtime and that rating, marking
the cache dirty. -/
def cacheLookupStep (cache : List (String × CacheEntry)) (dirty : Bool)
    (path : String) (current_mtime : Int) (live : Option Int) : CacheStepResult :=
  match lookupEntry cache path with
  | some e =>
    if e.mtime = current_mtime then
      { file_rating := e.rating, cache := cache, dirty := dirty, codecInvoked := false }
    else
      { file_rating := live,
        cache := insertEntry cache path { mtime := current_mtime, rating := live },
        dirty := true, codecInvoked := true }
  | none =>
    { file_rating := live,
      cache := insertEntry cache path { mtime := current_mtime, rating := live },
      dirty := true, codecInvoked := true }

/-- The `track_change` helper inside `_process_item`: build the change
message, log it as a warning and append it to `self.updated_tracks`. -/
def track_change (w : World) (action : String) (oldVal newVal : Option Int)
    (title : String) : World :=
  let msg := action ++ ": " ++ title ++ " (" ++ fmtRating oldVal ++ " -> "
               ++ fmtRating newVal ++ ")"
  { w with logs := w.logs ++ [LogEntry.warning msg],
           updatedTracks := w.updatedTracks ++ [msg] }

/-- Result of one `_process_item` call: the world afterwards and whether
an uncaught exception propagated out of the call. -/
structure ProcResult where
  world : World
  raised : Bool := false

/-- The `import`/`export`/`sync` decision chain of `_process_item`
(sync.py lines 170-219): `plex_rating` and `file_rating` are the ratings
already fetched, `file` is the pre-write stat of the local file, and `w`
already contains the cache block's result.  Each write branch first calls
`track_change` and then performs the write; each local write is followed
by a re-stat that on success stores the new (mtime, rating) pair and on
failure deletes the cache entry. -/
def decisionStep (f : Faults) (mode : Mode) (item : Track)
    (plex_rating file_rating : Option Int) (file : LocalFile) (w : World) : ProcResult :=
  if mode = Mode.imp ∧ file_rating ≠ none then
          if plex_rating ≠ file_rating then
            let w := track_change w "IMPORT (File->Plex)" plex_rating file_rating item.title
            if f.remoteWriteFail then { world := w, raised := true }
            else { world := { w with remote := setRemote w.remote item.id file_rating } }
          else
            { world := { w with logs := w.logs ++ [LogEntry.debug "Plex rating already matches file"] } }
        else if mode = Mode.exp ∧ plex_rating ≠ none then
          if file_rating ≠ plex_rating then
            let w := track_change w "EXPORT (Plex->File)" file_rating plex_rating item.title
            if f.localWriteFail then { world := w, raised := true }
            else
              let newFile : LocalFile := { mtime := file.mtime + 1, rating := plex_rating }
              let w := { w with files := setFile w.files item.path (some newFile) }
              if f.restatFail then
                { world := { w with cache := eraseEntry w.cache item.path } }
              else
                { world := { w with
                    cache := insertEntry w.cache item.path
                      { mtime := newFile.mtime, rating := plex_rating },
                    cacheDirty := true } }
          else
            { world := { w with logs := w.logs ++ [LogEntry.debug "File rating already matches Plex"] } }
        else if mode = Mode.sync then
          if plex_rating ≠ file_rating then
            if plex_rating ≠ none then
              let w := track_change w "SYNC (Plex->File)" file_rating plex_rating item.title
              if f.localWriteFail then { world := w, raised := true }
              else
                let newFile : LocalFile := { mtime := file.mtime + 1, rating := plex_rating }
                let w := { w with files := setFile w.files item.path (some newFile) }
                if f.restatFail then
                  { world := { w with cache := eraseEntry w.cache item.path } }
                else
                  { world := { w with
                      cache := insertEntry w.cache item.path
                        { mtime := newFile.mtime, rating := plex_rating },
                      cacheDirty := true } }
            else if file_rating ≠ none then
              let w := track_change w "SYNC (File->Plex)" plex_rating file_rating item.title
              if f.remoteWriteFail then { world := w, raised := true }
              else { world := { w with remote := setRemote w.remote item.id file_rating } }
            else { world := w }
          else
            { world := { w with logs := w.logs ++ [LogEntry.debug "Ratings are already in sync"] } }
        else { world := w }

/-- `_process_item` (sync.py lines 109-223), faithfully following the
source's control flow: log the track banner; skip if the file does not
exist or its extension is unsupported; read the remote rating live; stat
the file (a `FileNotFoundError` here is swallowed by a bare `return`, any
other stat error propagates); run the cache block; then hand over to the
decision chain `decisionStep`. -/
def processItem (f : Faults) (mode : Mode) (item : Track) (w : World) : ProcResult :=
  let w := { w with logs := w.logs ++ [LogEntry.info ("Track: " ++ item.title)] }
  match w.files item.path with
  | none =>
    { world := { w with logs := w.logs ++ [LogEntry.warning "File not found on disk"] } }
  | some file =>
    if suffixLower item.path ∉ _SUPPORTED_EXTENSIONS then
      { world := { w with logs := w.logs ++ [LogEntry.warning "Skipping unsupported file type"] } }
    else
      let plex_rating := w.remote item.id
      match f.statFail with
      | some StatErr.fileNotFound => { world := w }
      | some StatErr.other => { world := w, raised := true }
      | none =>
        let cr := cacheLookupStep w.cache w.cacheDirty item.path file.mtime file.rating
        decisionStep f mode item plex_rating cr.file_rating file
          { w with cache := cr.cache, cacheDirty := cr.dirty }

/-- `CACHE_SAVE_INTERVAL` (sync.py line 47). -/
def CACHE_SAVE_INTERVAL : Nat := 50

/-- Result of the walk in `_process_libraries`: the world, the
`processed_tracks` and `tracks_since_save` counters, and whether an
uncaught per-track exception propagated out of the walk. -/
structure WalkResult where
  world : World
  processed : Nat
  since : Nat
  raised : Bool

/-- The innermost loop of `_process_libraries` (sync.py lines 258-265)
over one library's flattened track sequence: process each track, bump the
counters, flush the cache every `CACHE_SAVE_INTERVAL` tracks.  There is no
`try/except` around `_process_item`, so a raised exception stops the walk
immediately and propagates (`raised := true`). -/
def walkTracks (ft : Track → Faults) (saveFail : Bool) (mode : Mode) :
    List Track → World → Nat → Nat → WalkResult
  | [], w, processed, since => { world := w, processed := processed, since := since, raised := false }
  | t :: rest, w, processed, since =>
    let r := processItem (ft t) mode t w
    if r.raised then
      { world := r.world, processed := processed, since := since, raised := true }
    else if CACHE_SAVE_INTERVAL ≤ since + 1 then
      walkTracks ft saveFail mode rest (save_cache saveFail r.world) (processed + 1) 0
    else
      walkTracks ft saveFail mode rest r.world (processed + 1) (since + 1)

/-- The per-library loop of `_process_libraries` (sync.py lines 231-265):
each library contributes its flattened artist→album→track sequence; the
counters persist across libraries; an exception escaping a track's
processing propagates out of the remaining libraries as well. -/
def walkLibraries (ft : Track → Faults) (saveFail : Bool) (mode : Mode) :
    List (List Track) → World → Nat → Nat → WalkResult
  | [], w, processed, since => { world := w, processed := processed, since := since, raised := false }
  | lib :: rest, w, processed, since =>
    let r := walkTracks ft saveFail mode lib w processed since
    if r.raised then r
    else walkLibraries ft saveFail mode rest r.world r.processed r.since

/-- `_process_libraries` (sync.py lines 225-273): walk every library's
tracks, then flush the cache once more — unless an uncaught per-track
exception aborted the walk, in which case the final `save_cache` is never
reached. -/
def process_libraries (ft : Track → Faults) (saveFail : Bool) (mode : Mode)
    (libs : List (List Track)) (w : World) : WalkResult :=
  let r := walkLibraries ft saveFail mode libs w 0 0
  if r.raised then r
  else { r with world := save_cache saveFail r.world }

/-- A track is settled in a world when fault-free processing of it
changes nothing but the log output: either its file is skipped (missing
or unsupported extension), or the cache holds a valid entry for it whose
rating makes the mode's decision a no-op. -/
def settled (mode : Mode) (t : Track) (w : World) : Prop :=
  match w.files t.path with
  | none => True
  | some file =>
    suffixLower t.path ∉ _SUPPORTED_EXTENSIONS ∨
    ∃ e, lookupEntry w.cache t.path = some e ∧ e.mtime = file.mtime ∧
      decideAction mode (w.remote t.id) e.rating = Action.noop

/-- Everything except the log output agrees between two worlds. -/
def sameStores (w w' : World) : Prop :=
  w'.remote = w.remote ∧ w'.files = w.files ∧ w'.cache = w.cache ∧
  w'.cacheDirty = w.cacheDirty ∧ w'.disk = w.disk ∧
  w'.updatedTracks = w.updatedTracks

/-- Fixture: a track whose file is `/m/a.mp3`, remote item 1. -/
def exTrack1 : Track := { id := 1, title := "T1", path := "/m/a.mp3" }

/-- Fixture: a track whose file is `/m/b.mp3`, remote item 2. -/
def exTrack2 : Track := { id := 2, title := "T2", path := "/m/b.mp3" }

/-- Fixture: a second track item referencing the same file as
`exTrack1` but a different remote item. -/
def exTrack1shared : Track := { id := 3, title := "T3", path := "/m/a.mp3" }

/-- Fixture: a second track item sharing remote item 1 with `exTrack1`
but referencing a different file. -/
def exTrack1sameId : Track := { id := 1, title := "T4", path := "/m/c.mp3" }

/-- Fixture world: item 1 rated 4 and item 2 rated 5 remotely; `/m/a.mp3`
unrated, `/m/b.mp3` rated 2, `/m/c.mp3` rated 7 locally; empty clean
cache. -/
def exWorld : World :=
  { remote := fun i => if i = 1 then some 4 else if i = 2 then some 5 else none,
    files := fun p =>
      if p = "/m/a.mp3" then some { mtime := 10, rating := none }
      else if p = "/m/b.mp3" then some { mtime := 20, rating := some 2 }
      else if p = "/m/c.mp3" then some { mtime := 30, rating := some 7 }
      else none,
    cache := [], cacheDirty := false, disk := none, updatedTracks := [], logs := [] }

/-- Fixture world for the import counterexamples: no remote ratings,
both files rated locally. -/
def exWorldImp : World :=
  { remote := fun _ => none,
    files := fun p =>
      if p = "/m/a.mp3" then some { mtime := 10, rating := some 5 }
      else if p = "/m/b.mp3" then some { mtime := 20, rating := some 2 }
      else none,
    cache := [], cacheDirty := false, disk := none, updatedTracks := [], logs := [] }

/-- Fixture world for the invalidate claim: a valid cache entry for
`/m/a.mp3` with rating 1, remote rating 4, clean cache, and a persisted
cache file holding that same entry. -/
def exWorldInv : World :=
  { remote := fun i => if i = 1 then some 4 else none,
    files := fun p => if p = "/m/a.mp3" then some { mtime := 10, rating := some 1 } else none,
    cache := [("/m/a.mp3", { mtime := 10, rating := some 1 })],
    cacheDirty := false,
    disk := some (encodeCache [("/m/a.mp3", { mtime := 10, rating := some 1 })]),
    updatedTracks := [], logs := [] }

/-- Fixture fault assignment: the write for remote item 1 raises, all
other tracks process cleanly. -/
def exFaults1 : Track → Faults :=
  fun tr => if tr.id = 1 then { remoteWriteFail := true } else noFaults

/-- Fixture world for the shared-file-path counterexample: two remote
items (1 and 3) rated 4 and 5, one unrated file `/m/a.mp3`. -/
def exWorldDup : World :=
  { remote := fun i => if i = 1 then some 4 else if i = 3 then some 5 else none,
    files := fun p => if p = "/m/a.mp3" then some { mtime := 10, rating := none } else none,
    cache := [], cacheDirty := false, disk := none, updatedTracks := [], logs := [] }

/-- Fixture world for the shared-remote-item counterexample: no remote
ratings, two files rated 5 and 7 whose tracks both point at remote
item 1. -/
def exWorldDupId : World :=
  { remote := fun _ => none,
    files := fun p =>
      if p = "/m/a.mp3" then some { mtime := 10, rating := some 5 }
      else if p = "/m/c.mp3" then some { mtime := 30, rating := some 7 }
      else none,
    cache := [], cacheDirty := false, disk := none, updatedTracks := [], logs := [] }

theorem lookupEntry_insert_self (c : List (String × CacheEntry)) (p : String) (e : CacheEntry) :
    lookupEntry (insertEntry c p e) p = some e := by
  induction c with
  | nil => simp [insertEntry, lookupEntry]
  | cons hd tl ih =>
    obtain ⟨q, e0⟩ := hd
    by_cases h : q = p <;> simp [insertEntry, lookupEntry, h, ih]

theorem lookupEntry_insert_ne (c : List (String × CacheEntry)) (p p' : String) (e : CacheEntry)
    (h : p' ≠ p) : lookupEntry (insertEntry c p e) p' = lookupEntry c p' := by
  induction c with
  | nil => simp [insertEntry, lookupEntry, Ne.symm h]
  | cons hd tl ih =>
    obtain ⟨q, e0⟩ := hd
    by_cases hq : q = p
    · subst hq
      simp [insertEntry, lookupEntry, Ne.symm h]
    · by_cases hq' : q = p' <;> simp [insertEntry, lookupEntry, hq, hq', ih, h]

theorem lookupEntry_eq_none_of_not_mem (c : List (String × CacheEntry)) (p : String)
    (h : p ∉ c.map Prod.fst) : lookupEntry c p = none := by
  induction c with
  | nil => simp [lookupEntry]
  | cons hd tl ih =>
    obtain ⟨q, e0⟩ := hd
    simp only [List.map_cons, List.mem_cons] at h
    push_neg at h
    simp [lookupEntry, Ne.symm h.1, ih h.2]

theorem lookupEntry_erase_self (c : List (String × CacheEntry)) (p : String)
    (hnd : (c.map Prod.fst).Nodup) : lookupEntry (eraseEntry c p) p = none := by
  induction c with
  | nil => simp [eraseEntry, lookupEntry]
  | cons hd tl ih =>
    obtain ⟨q, e0⟩ := hd
    simp only [List.map_cons, List.nodup_cons] at hnd
    by_cases h : q = p
    · subst h
      simp only [eraseEntry, if_pos rfl]
      exact lookupEntry_eq_none_of_not_mem tl q hnd.1
    · simp [eraseEntry, lookupEntry, h, ih hnd.2]

theorem lookupEntry_erase_ne (c : List (String × CacheEntry)) (p p' : String)
    (h : p' ≠ p) : lookupEntry (eraseEntry c p) p' = lookupEntry c p' := by
  induction c with
  | nil => simp [eraseEntry, lookupEntry]
  | cons hd tl ih =>
    obtain ⟨q, e0⟩ := hd
    by_cases hq : q = p
    · subst hq
      simp [eraseEntry, lookupEntry, Ne.symm h]
    · by_cases hq' : q = p' <;> simp [eraseEntry, lookupEntry, hq, hq', ih, h]


theorem decodeEntry_encodeEntry (e : CacheEntry) : decodeEntry (encodeEntry e) = some e := by
  cases e with
  | mk m r => cases r <;> simp [encodeEntry, decodeEntry, decodeRating]

theorem decodeCache_encodeCache (c : List (String × CacheEntry)) :
    decodeCache (encodeCache c) = some c := by
  induction c with
  | nil => simp [encodeCache, decodeCache, decodeFields]
  | cons hd tl ih =>
    obtain ⟨p, e⟩ := hd
    simp only [encodeCache, decodeCache, List.map_cons] at ih ⊢
    simp [decodeFields, decodeEntry_encodeEntry, ih]

/-- C7: `save_cache` is a no-op on a clean cache; on a dirty cache it
serializes the full mapping and clears the dirty flag; an I/O error while
writing is logged and swallowed (the function returns normally, with the
persisted file, the mapping and the — still set — dirty flag untouched),
so a flush failure never aborts the run. -/
theorem save_cache_flush_spec (b : Bool) (w : World) :
    (w.cacheDirty = false → save_cache b w = w) ∧
    (w.cacheDirty = true → b = false →
      (save_cache b w).disk = some (encodeCache w.cache) ∧
      (save_cache b w).cacheDirty = false ∧
      (save_cache b w).cache = w.cache ∧
      (save_cache b w).logs = w.logs) ∧
    (w.cacheDirty = true → b = true →
      (save_cache b w).disk = w.disk ∧
      (save_cache b w).cacheDirty = true ∧
      (save_cache b w).cache = w.cache ∧
      (save_cache b w).logs = w.logs ++ [LogEntry.error "Failed to save cache"]) := by
  refine ⟨fun h => ?_, fun h hb => ?_, fun h hb => ?_⟩ <;>
    subst_vars <;> simp [save_cache, *]

/-- Witness for `save_cache_flush_spec`: a concrete dirty cache flushed
without an I/O error persists the encoded mapping and comes back clean. -/
theorem save_cache_flush_spec_witness :
    let w : World :=
      { remote := fun _ => none, files := fun _ => none,
        cache := [("/a/x.mp3", { mtime := 3, rating := some 4 })],
        cacheDirty := true, disk := none, updatedTracks := [], logs := [] }
    (save_cache false w).disk = some (encodeCache w.cache) ∧
    (save_cache false w).cacheDirty = false ∧
    (save_cache false w).cache = w.cache ∧
    (save_cache false w).logs = w.logs :=
  (save_cache_flush_spec false _).2.1 rfl rfl

/-- C8: for every in-memory cache mapping, flushing a dirty cache with
`save_cache` and then reading it back with `load_cache` reproduces the
identical path → (mtime, rating) mapping, including entries whose rating
is absent. -/
theorem cache_save_load_round_trip (w : World) (h : w.cacheDirty = true) :
    (load_cache (save_cache false w).disk).1 = w.cache := by
  simp [save_cache, h, load_cache, decodeCache_encodeCache]

/-- Witness for `cache_save_load_round_trip`: a two-entry mapping, one
entry with an absent rating, survives the save/load round trip. -/
theorem cache_save_load_round_trip_witness :
    let w : World :=
      { remote := fun _ => none, files := fun _ => none,
        cache := [("/a/x.mp3", { mtime := 3, rating := some 4 }),
                  ("/a/y.flac", { mtime := 7, rating := none })],
        cacheDirty := true, disk := none, updatedTracks := [], logs := [] }
    (load_cache (save_cache false w).disk).1 = w.cache :=
  cache_save_load_round_trip _ rfl


/-- C1: for every pair of optional ratings, the decision structure of
`_process_item` chooses exactly the action of the §4.2 decision table, for
each of the three modes; equality treats two absent values as equal and an
absent vs present value as unequal. -/
theorem decision_matches_spec_table (mode : Mode) (R L : Option Int) :
    decideAction mode R L = specAction mode R L := by
  cases mode <;> cases R <;> cases L <;>
    simp [decideAction, specAction]

/-- C2: during track processing, the cached entry is used — and the local
tag codec is not invoked — iff an entry exists for the file's path whose
stored mtime equals the file's current mtime (and then the rating, cache
and dirty flag are passed through unchanged); on any cache miss the
rating is read live from the codec and the entry for the path is
immediately replaced by the current mtime and that fresh rating — even an
absent one — marking the cache dirty. -/
theorem cache_lookup_step_spec (cache : List (String × CacheEntry)) (dirty : Bool)
    (path : String) (m : Int) (live : Option Int) :
    ((cacheLookupStep cache dirty path m live).codecInvoked = false ↔
      ∃ e, lookupEntry cache path = some e ∧ e.mtime = m) ∧
    (∀ e, lookupEntry cache path = some e → e.mtime = m →
      cacheLookupStep cache dirty path m live =
        { file_rating := e.rating, cache := cache, dirty := dirty, codecInvoked := false }) ∧
    ((cacheLookupStep cache dirty path m live).codecInvoked = true →
      (cacheLookupStep cache dirty path m live).file_rating = live ∧
      lookupEntry (cacheLookupStep cache dirty path m live).cache path =
        some { mtime := m, rating := live } ∧
      (cacheLookupStep cache dirty path m live).dirty = true) := by
  unfold cacheLookupStep
  cases hl : lookupEntry cache path with
  | none => simp [hl, lookupEntry_insert_self]
  | some e =>
    by_cases hm : e.mtime = m
    · simp [hl, hm]
    · simp [hl, hm, lookupEntry_insert_self]

/-- Witness for `cache_lookup_step_spec`: a concrete stale entry is a
miss; the live rating is absent and is still cached, with the current
mtime, and the dirty flag set. -/
theorem cache_lookup_step_spec_witness :
    (cacheLookupStep [("/m/a.mp3", { mtime := 3, rating := some 2 })] false "/m/a.mp3" 5 none).codecInvoked = true ∧
    (cacheLookupStep [("/m/a.mp3", { mtime := 3, rating := some 2 })] false "/m/a.mp3" 5 none).file_rating = none ∧
    lookupEntry (cacheLookupStep [("/m/a.mp3", { mtime := 3, rating := some 2 })] false "/m/a.mp3" 5 none).cache "/m/a.mp3" =
      some { mtime := 5, rating := none } ∧
    (cacheLookupStep [("/m/a.mp3", { mtime := 3, rating := some 2 })] false "/m/a.mp3" 5 none).dirty = true := by
  refine ⟨by decide, ?_⟩
  have h := (cache_lookup_step_spec [("/m/a.mp3", { mtime := 3, rating := some 2 })] false "/m/a.mp3" 5 none).2.2 (by decide)
  exact ⟨h.1, h.2.1, h.2.2⟩

theorem setRemote_self (g : Nat → Option Int) (i : Nat) (v : Option Int) :
    setRemote g i v i = v := by
  simp [setRemote]

theorem setRemote_ne (g : Nat → Option Int) (i j : Nat) (v : Option Int) (h : j ≠ i) :
    setRemote g i v j = g j := by
  simp [setRemote, h]

theorem setFile_self (g : String → Option LocalFile) (p : String) (v : Option LocalFile) :
    setFile g p v p = v := by
  simp [setFile]

theorem setFile_ne (g : String → Option LocalFile) (p q : String) (v : Option LocalFile)
    (h : q ≠ p) : setFile g p v q = g q := by
  simp [setFile, h]

theorem mem_keys_insertEntry (c : List (String × CacheEntry)) (p x : String) (e : CacheEntry) :
    x ∈ (insertEntry c p e).map Prod.fst ↔ x ∈ c.map Prod.fst ∨ x = p := by
  induction c with
  | nil => simp [insertEntry]
  | cons hd tl ih =>
    obtain ⟨q, e0⟩ := hd
    by_cases hq : q = p <;> simp [insertEntry, hq, ih] <;> tauto

theorem insertEntry_keys_nodup (c : List (String × CacheEntry)) (p : String) (e : CacheEntry)
    (h : (c.map Prod.fst).Nodup) : ((insertEntry c p e).map Prod.fst).Nodup := by
  induction c with
  | nil => simp [insertEntry]
  | cons hd tl ih =>
    obtain ⟨q, e0⟩ := hd
    simp only [List.map_cons, List.nodup_cons] at h
    by_cases hq : q = p
    · subst hq
      simp [insertEntry, h.1, h.2]
    · simp only [insertEntry, if_neg hq, List.map_cons, List.nodup_cons]
      refine ⟨?_, ih h.2⟩
      rw [mem_keys_insertEntry]
      rintro (hm | hm)
      · exact h.1 hm
      · exact hq hm

theorem cacheLookupStep_keys_nodup (cache : List (String × CacheEntry)) (dirty : Bool)
    (path : String) (m : Int) (live : Option Int)
    (h : (cache.map Prod.fst).Nodup) :
    (((cacheLookupStep cache dirty path m live).cache).map Prod.fst).Nodup := by
  unfold cacheLookupStep
  cases hl : lookupEntry cache path with
  | none => exact insertEntry_keys_nodup _ _ _ h
  | some e =>
    by_cases hm : e.mtime = m
    · simpa [hl, hm] using h
    · simp only [hl, if_neg hm]
      exact insertEntry_keys_nodup _ _ _ h

theorem decisionStep_files_shape (f : Faults) (mode : Mode) (t : Track)
    (pr fr : Option Int) (file : LocalFile) (w : World)
    (hnd : (w.cache.map Prod.fst).Nodup) :
    (decisionStep f mode t pr fr file w).world.files t.path = w.files t.path ∨
    (pr ≠ none ∧
      (decisionStep f mode t pr fr file w).world.files t.path =
        some { mtime := file.mtime + 1, rating := pr } ∧
      (f.restatFail = false →
        lookupEntry (decisionStep f mode t pr fr file w).world.cache t.path =
          some { mtime := file.mtime + 1, rating := pr } ∧
        (decisionStep f mode t pr fr file w).world.cacheDirty = true) ∧
      (f.restatFail = true →
        lookupEntry (decisionStep f mode t pr fr file w).world.cache t.path = none)) := by
  unfold decisionStep
  by_cases h1 : mode = Mode.imp ∧ fr ≠ none
  · simp only [if_pos h1]
    by_cases h2 : pr ≠ fr
    · simp only [if_pos h2]
      cases hrw : f.remoteWriteFail <;> simp [track_change]
    · simp [h2]
  · simp only [if_neg h1]
    by_cases h3 : mode = Mode.exp ∧ pr ≠ none
    · simp only [if_pos h3]
      by_cases h4 : fr ≠ pr
      · simp only [if_pos h4]
        cases hlw : f.localWriteFail
        · simp only [Bool.false_eq_true, if_false]
          cases hrs : f.restatFail
          · right
            refine ⟨h3.2, ?_, ?_, ?_⟩ <;>
              simp [track_change, setFile_self, lookupEntry_insert_self, hrs]
          · right
            refine ⟨h3.2, ?_, ?_, ?_⟩ <;>
              simp [track_change, setFile_self, lookupEntry_erase_self _ _ hnd, hrs]
        · left
          simp [track_change, hlw]
      · simp [h4]
    · simp only [if_neg h3]
      by_cases h5 : mode = Mode.sync
      · simp only [if_pos h5]
        by_cases h6 : pr ≠ fr
        · simp only [if_pos h6]
          by_cases h7 : pr ≠ none
          · simp only [if_pos h7]
            cases hlw : f.localWriteFail
            · simp only [Bool.false_eq_true, if_false]
              cases hrs : f.restatFail
              · right
                refine ⟨h7, ?_, ?_, ?_⟩ <;>
                  simp [track_change, setFile_self, lookupEntry_insert_self, hrs]
              · right
                refine ⟨h7, ?_, ?_, ?_⟩ <;>
                  simp [track_change, setFile_self, lookupEntry_erase_self _ _ hnd, hrs]
            · left
              simp [track_change, hlw]
          · simp only [if_neg h7]
            by_cases h8 : fr ≠ none
            · simp only [if_pos h8]
              cases hrw : f.remoteWriteFail <;> simp [track_change]
            · simp [h8]
        · simp [h6]
      · simp [h5]

theorem processItem_eq_decisionStep (f : Faults) (mode : Mode) (t : Track) (w : World)
    (file : LocalFile) (hf : w.files t.path = some file)
    (hext : suffixLower t.path ∈ _SUPPORTED_EXTENSIONS) (hsf : f.statFail = none) :
    processItem f mode t w =
      decisionStep f mode t (w.remote t.id)
        (cacheLookupStep w.cache w.cacheDirty t.path file.mtime file.rating).file_rating file
        { w with
            logs := w.logs ++ [LogEntry.info ("Track: " ++ t.title)],
            cache := (cacheLookupStep w.cache w.cacheDirty t.path file.mtime file.rating).cache,
            cacheDirty := (cacheLookupStep w.cache w.cacheDirty t.path file.mtime file.rating).dirty } := by
  simp [processItem, hf, hext, hsf]

/-- C4: whenever a local write is performed, the tag codec's write comes
first and the file is then re-statted; if the re-stat succeeds the cache
entry for the path becomes the new (mtime, written value) pair with the
dirty flag set, and if the re-stat fails the entry is removed — the cache
never retains the pre-write entry after a local write.  The written value
is the remote rating, which is present.  "A local write happened" is
observed as the track's file having changed. -/
theorem local_write_cache_update (f : Faults) (mode : Mode) (t : Track) (w : World)
    (hnd : (w.cache.map Prod.fst).Nodup)
    (hchg : (processItem f mode t w).world.files t.path ≠ w.files t.path) :
    ∃ nf : LocalFile,
      (processItem f mode t w).world.files t.path = some nf ∧
      nf.rating = w.remote t.id ∧ nf.rating ≠ none ∧
      (f.restatFail = false →
        lookupEntry (processItem f mode t w).world.cache t.path =
          some { mtime := nf.mtime, rating := nf.rating } ∧
        (processItem f mode t w).world.cacheDirty = true) ∧
      (f.restatFail = true →
        lookupEntry (processItem f mode t w).world.cache t.path = none) := by
  cases hf : w.files t.path with
  | none =>
    exfalso
    apply hchg
    simp [processItem, hf]
  | some file =>
    by_cases hext : suffixLower t.path ∈ _SUPPORTED_EXTENSIONS
    case neg =>
      exfalso
      apply hchg
      simp [processItem, hf, hext]
    cases hsf : f.statFail with
    | some se =>
      exfalso
      apply hchg
      cases se <;> simp [processItem, hf, hext, hsf]
    | none =>
      rw [processItem_eq_decisionStep f mode t w file hf hext hsf] at hchg ⊢
      have hnd2 : ((cacheLookupStep w.cache w.cacheDirty t.path file.mtime file.rating).cache.map
          Prod.fst).Nodup :=
        cacheLookupStep_keys_nodup _ _ _ _ _ hnd
      have hshape := decisionStep_files_shape f mode t (w.remote t.id)
        (cacheLookupStep w.cache w.cacheDirty t.path file.mtime file.rating).file_rating file
        { w with
            logs := w.logs ++ [LogEntry.info ("Track: " ++ t.title)],
            cache := (cacheLookupStep w.cache w.cacheDirty t.path file.mtime file.rating).cache,
            cacheDirty := (cacheLookupStep w.cache w.cacheDirty t.path file.mtime file.rating).dirty }
        hnd2
      rcases hshape with hsame | ⟨hpr, hfw, hok, hfail⟩
      · exact absurd hsame hchg
      · exact ⟨{ mtime := file.mtime + 1, rating := w.remote t.id }, hfw, rfl, hpr, hok, hfail⟩

/-- Witness for `local_write_cache_update`: exporting remote rating 5
onto `/m/b.mp3` (locally rated 2) rewrites the file and leaves the cache
holding the new mtime and the written value. -/
theorem local_write_cache_update_witness :
    ∃ nf : LocalFile,
      (processItem noFaults Mode.exp exTrack2 exWorld).world.files exTrack2.path = some nf ∧
      nf.rating = exWorld.remote exTrack2.id ∧ nf.rating ≠ none ∧
      (noFaults.restatFail = false →
        lookupEntry (processItem noFaults Mode.exp exTrack2 exWorld).world.cache exTrack2.path =
          some { mtime := nf.mtime, rating := nf.rating } ∧
        (processItem noFaults Mode.exp exTrack2 exWorld).world.cacheDirty = true) ∧
      (noFaults.restatFail = true →
        lookupEntry (processItem noFaults Mode.exp exTrack2 exWorld).world.cache exTrack2.path = none) :=
  local_write_cache_update noFaults Mode.exp exTrack2 exWorld (by decide) (by decide)

theorem cacheLookupStep_hit (cache : List (String × CacheEntry)) (dirty : Bool)
    (path : String) (m : Int) (live : Option Int) (e : CacheEntry)
    (he : lookupEntry cache path = some e) (hm : e.mtime = m) :
    cacheLookupStep cache dirty path m live =
      { file_rating := e.rating, cache := cache, dirty := dirty, codecInvoked := false } := by
  simp [cacheLookupStep, he, hm]

theorem cacheLookupStep_missNone (cache : List (String × CacheEntry)) (dirty : Bool)
    (path : String) (m : Int) (live : Option Int)
    (he : lookupEntry cache path = none) :
    cacheLookupStep cache dirty path m live =
      { file_rating := live, cache := insertEntry cache path { mtime := m, rating := live },
        dirty := true, codecInvoked := true } := by
  simp [cacheLookupStep, he]

theorem cacheLookupStep_missStale (cache : List (String × CacheEntry)) (dirty : Bool)
    (path : String) (m : Int) (live : Option Int) (e : CacheEntry)
    (he : lookupEntry cache path = some e) (hm : e.mtime ≠ m) :
    cacheLookupStep cache dirty path m live =
      { file_rating := live, cache := insertEntry cache path { mtime := m, rating := live },
        dirty := true, codecInvoked := true } := by
  simp [cacheLookupStep, he, hm]

theorem decisionStep_localWrite_restatFail (f : Faults) (mode : Mode) (t : Track)
    (pr fr : Option Int) (file : LocalFile) (w : World)
    (hact : decideAction mode pr fr = Action.writeLocal pr)
    (hlw : f.localWriteFail = false) (hrs : f.restatFail = true)
    (hnd : (w.cache.map Prod.fst).Nodup) :
    (decisionStep f mode t pr fr file w).world.cacheDirty = w.cacheDirty ∧
    lookupEntry (decisionStep f mode t pr fr file w).world.cache t.path = none ∧
    (decisionStep f mode t pr fr file w).world.disk = w.disk ∧
    (decisionStep f mode t pr fr file w).raised = false := by
  unfold decideAction at hact
  unfold decisionStep
  by_cases h1 : mode = Mode.imp ∧ fr ≠ none
  · rw [if_pos h1] at hact
    by_cases h2 : pr ≠ fr <;> simp [h2] at hact
  · rw [if_neg h1] at hact
    simp only [if_neg h1]
    by_cases h3 : mode = Mode.exp ∧ pr ≠ none
    · rw [if_pos h3] at hact
      simp only [if_pos h3]
      by_cases h4 : fr ≠ pr
      · simp [h4, hlw, hrs, track_change, lookupEntry_erase_self _ _ hnd]
      · simp [h4] at hact
    · rw [if_neg h3] at hact
      simp only [if_neg h3]
      by_cases h5 : mode = Mode.sync
      · rw [if_pos h5] at hact
        simp only [if_pos h5]
        by_cases h6 : pr ≠ fr
        · rw [if_pos h6] at hact
          simp only [if_pos h6]
          by_cases h7 : pr ≠ none
          · simp [h7, hlw, hrs, track_change, lookupEntry_erase_self _ _ hnd]
          · simp only [if_neg h7] at hact
            by_cases h8 : fr ≠ none <;> simp [h8] at hact
        · simp [h6] at hact
      · simp [h5] at hact

/-- C9: removing a cache entry after a failed post-write re-stat leaves
the dirty flag unchanged; if nothing else set the flag in the run, a
subsequent flush is a no-op, so the removal is never persisted and the
persisted cache file still holds whatever it held before — possibly the
deleted pre-write entry.  The hypotheses pin the relevant branch: a valid
cache entry (hit), a decision to write locally, a successful tag write
and a failing re-stat. -/
theorem invalidate_leaves_dirty_flag (f : Faults) (mode : Mode) (t : Track) (w : World)
    (file : LocalFile) (e : CacheEntry)
    (hnd : (w.cache.map Prod.fst).Nodup)
    (hf : w.files t.path = some file)
    (hext : suffixLower t.path ∈ _SUPPORTED_EXTENSIONS)
    (hsf : f.statFail = none)
    (he : lookupEntry w.cache t.path = some e) (hm : e.mtime = file.mtime)
    (hact : decideAction mode (w.remote t.id) e.rating = Action.writeLocal (w.remote t.id))
    (hlw : f.localWriteFail = false) (hrs : f.restatFail = true) :
    (processItem f mode t w).world.cacheDirty = w.cacheDirty ∧
    lookupEntry (processItem f mode t w).world.cache t.path = none ∧
    (processItem f mode t w).world.disk = w.disk ∧
    (w.cacheDirty = false →
      ∀ b, save_cache b (processItem f mode t w).world = (processItem f mode t w).world) := by
  rw [processItem_eq_decisionStep f mode t w file hf hext hsf,
      cacheLookupStep_hit w.cache w.cacheDirty t.path file.mtime file.rating e he hm]
  have h := decisionStep_localWrite_restatFail f mode t (w.remote t.id) e.rating file
    { w with
        logs := w.logs ++ [LogEntry.info ("Track: " ++ t.title)],
        cache := w.cache, cacheDirty := w.cacheDirty }
    hact hlw hrs hnd
  refine ⟨h.1, h.2.1, h.2.2.1, fun hd _ => ?_⟩
  rw [save_cache, if_neg]
  rw [h.1]
  simp [hd]

/-- Witness for `invalidate_leaves_dirty_flag`: starting from a clean
cache whose entry for `/m/a.mp3` is also on disk, a sync-mode local write
whose re-stat fails deletes the in-memory entry but leaves the flag
clean and the persisted file — still holding the old entry — untouched. -/
theorem invalidate_leaves_dirty_flag_witness :
    (processItem { restatFail := true } Mode.sync exTrack1 exWorldInv).world.cacheDirty = exWorldInv.cacheDirty ∧
    lookupEntry (processItem { restatFail := true } Mode.sync exTrack1 exWorldInv).world.cache exTrack1.path = none ∧
    (processItem { restatFail := true } Mode.sync exTrack1 exWorldInv).world.disk = exWorldInv.disk ∧
    (exWorldInv.cacheDirty = false →
      ∀ b, save_cache b (processItem { restatFail := true } Mode.sync exTrack1 exWorldInv).world =
        (processItem { restatFail := true } Mode.sync exTrack1 exWorldInv).world) :=
  invalidate_leaves_dirty_flag { restatFail := true } Mode.sync exTrack1 exWorldInv
    { mtime := 10, rating := some 1 } { mtime := 10, rating := some 1 }
    (by decide) (by decide) (by decide) rfl (by decide) (by decide) (by decide) rfl rfl

theorem decisionStep_raised (f : Faults) (mode : Mode) (t : Track)
    (pr fr : Option Int) (file : LocalFile) (w : World)
    (h : (decisionStep f mode t pr fr file w).raised = true) :
    ∃ msg,
      (decisionStep f mode t pr fr file w).world.updatedTracks = w.updatedTracks ++ [msg] ∧
      LogEntry.warning msg ∈ (decisionStep f mode t pr fr file w).world.logs ∧
      (decisionStep f mode t pr fr file w).world.remote = w.remote ∧
      (decisionStep f mode t pr fr file w).world.files = w.files ∧
      (decisionStep f mode t pr fr file w).world.cache = w.cache := by
  unfold decisionStep at h ⊢
  by_cases h1 : mode = Mode.imp ∧ fr ≠ none
  · simp only [if_pos h1] at h ⊢
    by_cases h2 : pr ≠ fr
    · simp only [if_pos h2] at h ⊢
      cases hrw : f.remoteWriteFail
      · simp [hrw] at h
      · simp [hrw, track_change]
    · simp [h2] at h
  · simp only [if_neg h1] at h ⊢
    by_cases h3 : mode = Mode.exp ∧ pr ≠ none
    · simp only [if_pos h3] at h ⊢
      by_cases h4 : fr ≠ pr
      · simp only [if_pos h4] at h ⊢
        cases hlw : f.localWriteFail
        · simp only [hlw, Bool.false_eq_true, if_false] at h
          cases hrs : f.restatFail <;> simp [hrs] at h
        · simp [hlw, track_change]
      · simp [h4] at h
    · simp only [if_neg h3] at h ⊢
      by_cases h5 : mode = Mode.sync
      · simp only [if_pos h5] at h ⊢
        by_cases h6 : pr ≠ fr
        · simp only [if_pos h6] at h ⊢
          by_cases h7 : pr ≠ none
          · simp only [if_pos h7] at h ⊢
            cases hlw : f.localWriteFail
            · simp only [hlw, Bool.false_eq_true, if_false] at h
              cases hrs : f.restatFail <;> simp [hrs] at h
            · simp [hlw, track_change]
          · simp only [if_neg h7] at h ⊢
            by_cases h8 : fr ≠ none
            · simp only [if_pos h8] at h ⊢
              cases hrw : f.remoteWriteFail
              · simp [hrw] at h
              · simp [hrw, track_change]
            · simp [h8] at h
        · simp [h6] at h
      · simp [h5] at h

/-- C10: in every write branch of every mode, the UpdateRecord is
appended to the run's change log (and logged as a warning) before the
remote or local write call; hence when the write call raises, the escaped
state still contains exactly one new UpdateRecord while neither store was
actually changed. -/
theorem update_record_precedes_write (f : Faults) (mode : Mode) (t : Track) (w : World)
    (hr : (processItem f mode t w).raised = true) (hsf : f.statFail = none) :
    ∃ msg,
      (processItem f mode t w).world.updatedTracks = w.updatedTracks ++ [msg] ∧
      LogEntry.warning msg ∈ (processItem f mode t w).world.logs ∧
      (processItem f mode t w).world.remote = w.remote ∧
      (processItem f mode t w).world.files = w.files := by
  cases hf : w.files t.path with
  | none => simp [processItem, hf] at hr
  | some file =>
    by_cases hext : suffixLower t.path ∈ _SUPPORTED_EXTENSIONS
    case neg => simp [processItem, hf, hext] at hr
    rw [processItem_eq_decisionStep f mode t w file hf hext hsf] at hr ⊢
    obtain ⟨msg, hup, hlog, hrem, hfl, _⟩ := decisionStep_raised f mode t (w.remote t.id)
      (cacheLookupStep w.cache w.cacheDirty t.path file.mtime file.rating).file_rating file
      { w with
          logs := w.logs ++ [LogEntry.info ("Track: " ++ t.title)],
          cache := (cacheLookupStep w.cache w.cacheDirty t.path file.mtime file.rating).cache,
          cacheDirty := (cacheLookupStep w.cache w.cacheDirty t.path file.mtime file.rating).dirty }
      hr
    exact ⟨msg, hup, hlog, hrem, hfl⟩

/-- Witness for `update_record_precedes_write`: a failing remote write
in import mode leaves the one new UpdateRecord behind while the remote
catalog and the files are untouched. -/
theorem update_record_precedes_write_witness :
    ∃ msg,
      (processItem { remoteWriteFail := true } Mode.imp exTrack1 exWorldImp).world.updatedTracks =
        exWorldImp.updatedTracks ++ [msg] ∧
      LogEntry.warning msg ∈ (processItem { remoteWriteFail := true } Mode.imp exTrack1 exWorldImp).world.logs ∧
      (processItem { remoteWriteFail := true } Mode.imp exTrack1 exWorldImp).world.remote = exWorldImp.remote ∧
      (processItem { remoteWriteFail := true } Mode.imp exTrack1 exWorldImp).world.files = exWorldImp.files :=
  update_record_precedes_write { remoteWriteFail := true } Mode.imp exTrack1 exWorldImp
    (by decide) rfl

theorem decisionStep_noop_quiet (f : Faults) (mode : Mode) (t : Track)
    (pr fr : Option Int) (file : LocalFile) (w : World)
    (hact : decideAction mode pr fr = Action.noop) :
    (decisionStep f mode t pr fr file w).raised = false ∧
    sameStores w (decisionStep f mode t pr fr file w).world := by
  unfold decideAction at hact
  unfold decisionStep
  by_cases h1 : mode = Mode.imp ∧ fr ≠ none
  · rw [if_pos h1] at hact
    simp only [if_pos h1]
    by_cases h2 : pr ≠ fr
    · simp [h2] at hact
    · simp [h2, sameStores]
  · rw [if_neg h1] at hact
    simp only [if_neg h1]
    by_cases h3 : mode = Mode.exp ∧ pr ≠ none
    · rw [if_pos h3] at hact
      simp only [if_pos h3]
      by_cases h4 : fr ≠ pr
      · simp [h4] at hact
      · simp [h4, sameStores]
    · rw [if_neg h3] at hact
      simp only [if_neg h3]
      by_cases h5 : mode = Mode.sync
      · rw [if_pos h5] at hact
        simp only [if_pos h5]
        by_cases h6 : pr ≠ fr
        · rw [if_pos h6] at hact
          simp only [if_pos h6]
          by_cases h7 : pr ≠ none
          · simp [h7] at hact
          · simp only [if_neg h7] at hact ⊢
            by_cases h8 : fr ≠ none
            · simp [h8] at hact
            · simp [h8, sameStores]
        · simp [h6, sameStores]
      · simp [h5, sameStores]

theorem decisionStep_noFaults_settles (mode : Mode) (t : Track)
    (pr fr : Option Int) (file : LocalFile) (w : World)
    (hf : w.files t.path = some file)
    (hpr : w.remote t.id = pr)
    (hce : lookupEntry w.cache t.path = some { mtime := file.mtime, rating := fr }) :
    (decisionStep noFaults mode t pr fr file w).raised = false ∧
    settled mode t (decisionStep noFaults mode t pr fr file w).world := by
  unfold decisionStep
  by_cases h1 : mode = Mode.imp ∧ fr ≠ none
  · simp only [if_pos h1]
    by_cases h2 : pr ≠ fr
    · simp only [if_pos h2]
      refine ⟨by simp [noFaults, track_change], ?_⟩
      unfold settled
      simp only [noFaults, track_change]
      simp [hf, setRemote_self, hce, h1.1, decideAction, h1.2]
    · simp only [if_neg h2]
      refine ⟨by trivial, ?_⟩
      unfold settled
      simp only []
      push_neg at h2
      simp [hf, hce, hpr, decideAction, h1.1, h1.2, h2]
  · simp only [if_neg h1]
    by_cases h3 : mode = Mode.exp ∧ pr ≠ none
    · simp only [if_pos h3]
      by_cases h4 : fr ≠ pr
      · simp only [if_pos h4]
        refine ⟨by simp [noFaults, track_change], ?_⟩
        unfold settled
        simp only [noFaults, track_change]
        simp [setFile_self, lookupEntry_insert_self, hpr, decideAction, h3.1, h3.2]
      · simp only [if_neg h4]
        refine ⟨by trivial, ?_⟩
        unfold settled
        push_neg at h4
        simp [hf, hce, hpr, decideAction, h3.1, h3.2, h4]
    · simp only [if_neg h3]
      by_cases h5 : mode = Mode.sync
      · simp only [if_pos h5]
        by_cases h6 : pr ≠ fr
        · simp only [if_pos h6]
          by_cases h7 : pr ≠ none
          · simp only [if_pos h7]
            refine ⟨by simp [noFaults, track_change], ?_⟩
            unfold settled
            simp only [noFaults, track_change]
            simp [setFile_self, lookupEntry_insert_self, hpr, decideAction, h5, h7]
          · simp only [if_neg h7]
            by_cases h8 : fr ≠ none
            · simp only [if_pos h8]
              refine ⟨by simp [noFaults, track_change], ?_⟩
              unfold settled
              simp only [noFaults, track_change]
              simp [hf, setRemote_self, hce, h5, decideAction]
            · push_neg at h7 h8
              exact absurd (h7.trans h8.symm) h6
        · simp only [if_neg h6]
          refine ⟨by trivial, ?_⟩
          unfold settled
          push_neg at h6
          simp [hf, hce, hpr, decideAction, h5, h6]
      · have hnoop : decideAction mode pr fr = Action.noop := by
          unfold decideAction
          simp [h1, h3, h5]
        simp only [if_neg h5]
        refine ⟨by trivial, ?_⟩
        unfold settled
        simp [hf, hce, hpr, hnoop]

theorem settled_congr (mode : Mode) (t : Track) (w w' : World)
    (h1 : w'.files t.path = w.files t.path)
    (h2 : lookupEntry w'.cache t.path = lookupEntry w.cache t.path)
    (h3 : w'.remote t.id = w.remote t.id) :
    settled mode t w → settled mode t w' := by
  unfold settled
  rw [h1, h2, h3]
  exact id

theorem save_cache_stores (b : Bool) (w : World) :
    (save_cache b w).remote = w.remote ∧ (save_cache b w).files = w.files ∧
    (save_cache b w).cache = w.cache ∧ (save_cache b w).updatedTracks = w.updatedTracks := by
  unfold save_cache
  split_ifs <;> simp

theorem processItem_noFaults_settles (mode : Mode) (t : Track) (w : World) :
    (processItem noFaults mode t w).raised = false ∧
    settled mode t (processItem noFaults mode t w).world := by
  cases hf : w.files t.path with
  | none =>
    refine ⟨by simp [processItem, hf], ?_⟩
    unfold settled
    simp [processItem, hf]
  | some file =>
    by_cases hext : suffixLower t.path ∈ _SUPPORTED_EXTENSIONS
    case neg =>
      refine ⟨by simp [processItem, hf, hext], ?_⟩
      unfold settled
      simp [processItem, hf, hext]
    rw [processItem_eq_decisionStep noFaults mode t w file hf hext rfl]
    cases hl : lookupEntry w.cache t.path with
    | none =>
      rw [cacheLookupStep_missNone w.cache w.cacheDirty t.path file.mtime file.rating hl]
      exact decisionStep_noFaults_settles mode t (w.remote t.id) file.rating file _
        hf rfl (lookupEntry_insert_self _ _ _)
    | some e =>
      by_cases hm : e.mtime = file.mtime
      · rw [cacheLookupStep_hit w.cache w.cacheDirty t.path file.mtime file.rating e hl hm]
        refine decisionStep_noFaults_settles mode t (w.remote t.id) e.rating file _ hf rfl ?_
        rw [show ({ mtime := file.mtime, rating := e.rating } : CacheEntry) = e by
          cases e
          simp_all]
        exact hl
      · rw [cacheLookupStep_missStale w.cache w.cacheDirty t.path file.mtime file.rating e hl hm]
        exact decisionStep_noFaults_settles mode t (w.remote t.id) file.rating file _
          hf rfl (lookupEntry_insert_self _ _ _)

theorem processItem_quiet_of_settled (mode : Mode) (t : Track) (w : World)
    (hs : settled mode t w) :
    (processItem noFaults mode t w).raised = false ∧
    sameStores w (processItem noFaults mode t w).world := by
  unfold settled at hs
  cases hf : w.files t.path with
  | none =>
    refine ⟨by simp [processItem, hf], ?_⟩
    simp [processItem, hf, sameStores]
  | some file =>
    rw [hf] at hs
    by_cases hext : suffixLower t.path ∈ _SUPPORTED_EXTENSIONS
    case neg =>
      refine ⟨by simp [processItem, hf, hext], ?_⟩
      simp [processItem, hf, hext, sameStores]
    rcases hs with hs | ⟨e, he, hm, hact⟩
    · exact absurd hext hs
    · rw [processItem_eq_decisionStep noFaults mode t w file hf hext rfl,
        cacheLookupStep_hit w.cache w.cacheDirty t.path file.mtime file.rating e he hm]
      have h := decisionStep_noop_quiet noFaults mode t (w.remote t.id) e.rating file
        { w with
            logs := w.logs ++ [LogEntry.info ("Track: " ++ t.title)],
            cache := w.cache, cacheDirty := w.cacheDirty }
        hact
      refine ⟨h.1, ?_⟩
      obtain ⟨a, b, c, d, e2, f2⟩ := h.2
      exact ⟨a, b, c, d, e2, f2⟩

theorem decisionStep_frame (f : Faults) (mode : Mode) (t' : Track)
    (pr fr : Option Int) (file : LocalFile) (w : World) (t : Track)
    (hpath : t.path ≠ t'.path) (hid : t.id ≠ t'.id) :
    (decisionStep f mode t' pr fr file w).world.remote t.id = w.remote t.id ∧
    (decisionStep f mode t' pr fr file w).world.files t.path = w.files t.path ∧
    lookupEntry (decisionStep f mode t' pr fr file w).world.cache t.path =
      lookupEntry w.cache t.path := by
  unfold decisionStep
  by_cases h1 : mode = Mode.imp ∧ fr ≠ none
  · simp only [if_pos h1]
    by_cases h2 : pr ≠ fr
    · simp only [if_pos h2]
      cases hrw : f.remoteWriteFail <;>
        simp [track_change, setRemote_ne _ _ _ _ hid]
    · simp [h2, track_change]
  · simp only [if_neg h1]
    by_cases h3 : mode = Mode.exp ∧ pr ≠ none
    · simp only [if_pos h3]
      by_cases h4 : fr ≠ pr
      · simp only [if_pos h4]
        cases hlw : f.localWriteFail
        · simp only [hlw, Bool.false_eq_true, if_false]
          cases hrs : f.restatFail <;>
            simp [hrs, track_change, setFile_ne _ _ _ _ hpath,
              lookupEntry_insert_ne _ _ _ _ hpath, lookupEntry_erase_ne _ _ _ hpath]
        · simp [hlw, track_change]
      · simp [h4, track_change]
    · simp only [if_neg h3]
      by_cases h5 : mode = Mode.sync
      · simp only [if_pos h5]
        by_cases h6 : pr ≠ fr
        · simp only [if_pos h6]
          by_cases h7 : pr ≠ none
          · simp only [if_pos h7]
            cases hlw : f.localWriteFail
            · simp only [hlw, Bool.false_eq_true, if_false]
              cases hrs : f.restatFail <;>
                simp [hrs, track_change, setFile_ne _ _ _ _ hpath,
                  lookupEntry_insert_ne _ _ _ _ hpath, lookupEntry_erase_ne _ _ _ hpath]
            · simp [hlw, track_change]
          · simp only [if_neg h7]
            by_cases h8 : fr ≠ none
            · simp only [if_pos h8]
              cases hrw : f.remoteWriteFail <;>
                simp [track_change, setRemote_ne _ _ _ _ hid]
            · simp [h8]
        · simp [h6, track_change]
      · simp [h5]

theorem processItem_frame (f : Faults) (mode : Mode) (t' t : Track) (w : World)
    (hpath : t.path ≠ t'.path) (hid : t.id ≠ t'.id) :
    (processItem f mode t' w).world.remote t.id = w.remote t.id ∧
    (processItem f mode t' w).world.files t.path = w.files t.path ∧
    lookupEntry (processItem f mode t' w).world.cache t.path =
      lookupEntry w.cache t.path := by
  cases hf : w.files t'.path with
  | none => simp [processItem, hf]
  | some file =>
    by_cases hext : suffixLower t'.path ∈ _SUPPORTED_EXTENSIONS
    case neg => simp [processItem, hf, hext]
    cases hsf : f.statFail with
    | some se => cases se <;> simp [processItem, hf, hext, hsf]
    | none =>
      rw [processItem_eq_decisionStep f mode t' w file hf hext hsf]
      have h := decisionStep_frame f mode t' (w.remote t'.id)
        (cacheLookupStep w.cache w.cacheDirty t'.path file.mtime file.rating).file_rating file
        { w with
            logs := w.logs ++ [LogEntry.info ("Track: " ++ t'.title)],
            cache := (cacheLookupStep w.cache w.cacheDirty t'.path file.mtime file.rating).cache,
            cacheDirty := (cacheLookupStep w.cache w.cacheDirty t'.path file.mtime file.rating).dirty }
        t hpath hid
      refine ⟨h.1, h.2.1, ?_⟩
      rw [h.2.2]
      show lookupEntry (cacheLookupStep w.cache w.cacheDirty t'.path file.mtime file.rating).cache
        t.path = lookupEntry w.cache t.path
      cases hl : lookupEntry w.cache t'.path with
      | none =>
        rw [cacheLookupStep_missNone w.cache w.cacheDirty t'.path file.mtime file.rating hl]
        exact lookupEntry_insert_ne _ _ _ _ hpath
      | some e =>
        by_cases hm : e.mtime = file.mtime
        · rw [cacheLookupStep_hit w.cache w.cacheDirty t'.path file.mtime file.rating e hl hm]
        · rw [cacheLookupStep_missStale w.cache w.cacheDirty t'.path file.mtime file.rating e hl hm]
          exact lookupEntry_insert_ne _ _ _ _ hpath

theorem walkTracks_preserves_settled (ft : Track → Faults) (b : Bool) (mode : Mode)
    (l : List Track) (t : Track)
    (hoff : ∀ t2 ∈ l, t.path ≠ t2.path ∧ t.id ≠ t2.id) :
    ∀ (w : World) (p s : Nat), settled mode t w →
      settled mode t (walkTracks ft b mode l w p s).world := by
  induction l with
  | nil =>
    intro w p s hs
    simpa [walkTracks] using hs
  | cons hd tl ih =>
    intro w p s hs
    have hne := hoff hd (List.mem_cons_self hd tl)
    have hfr := processItem_frame (ft hd) mode hd t w hne.1 hne.2
    have hs1 : settled mode t (processItem (ft hd) mode hd w).world :=
      settled_congr mode t w _ hfr.2.1 hfr.2.2 hfr.1 hs
    have hoff2 : ∀ t2 ∈ tl, t.path ≠ t2.path ∧ t.id ≠ t2.id :=
      fun t2 ht2 => hoff t2 (List.mem_cons_of_mem hd ht2)
    cases hr : (processItem (ft hd) mode hd w).raised with
    | true => simpa [walkTracks, hr] using hs1
    | false =>
      by_cases hsv : CACHE_SAVE_INTERVAL ≤ s + 1
      · have hsst := save_cache_stores b (processItem (ft hd) mode hd w).world
        have hs2 : settled mode t (save_cache b (processItem (ft hd) mode hd w).world) :=
          settled_congr mode t _ _ (by rw [hsst.2.1]) (by rw [hsst.2.2.1]) (by rw [hsst.1]) hs1
        have hrec := ih hoff2 (save_cache b (processItem (ft hd) mode hd w).world) (p + 1) 0 hs2
        simpa [walkTracks, hr, hsv] using hrec
      · have hrec := ih hoff2 (processItem (ft hd) mode hd w).world (p + 1) (s + 1) hs1
        simpa [walkTracks, hr, hsv] using hrec

theorem walkTracks_settles (b : Bool) (mode : Mode) (l : List Track) :
    l.Pairwise (fun a a2 => a.path ≠ a2.path ∧ a.id ≠ a2.id) →
    ∀ (w : World) (p s : Nat),
      (walkTracks (fun _ => noFaults) b mode l w p s).raised = false ∧
      ∀ t ∈ l, settled mode t (walkTracks (fun _ => noFaults) b mode l w p s).world := by
  induction l with
  | nil =>
    intro _ w p s
    simp [walkTracks]
  | cons hd tl ih =>
    intro hpw w p s
    rw [List.pairwise_cons] at hpw
    obtain ⟨hhd, htl⟩ := hpw
    have hp1 := processItem_noFaults_settles mode hd w
    by_cases hsv : CACHE_SAVE_INTERVAL ≤ s + 1
    · have hsst := save_cache_stores b (processItem noFaults mode hd w).world
      have hs2 : settled mode hd (save_cache b (processItem noFaults mode hd w).world) :=
        settled_congr mode hd _ _ (by rw [hsst.2.1]) (by rw [hsst.2.2.1]) (by rw [hsst.1]) hp1.2
      obtain ⟨hr2, hall⟩ := ih htl (save_cache b (processItem noFaults mode hd w).world) (p + 1) 0
      constructor
      · simpa [walkTracks, hp1.1, hsv] using hr2
      · intro t ht
        rcases List.mem_cons.mp ht with rfl | ht2
        · have hpre := walkTracks_preserves_settled (fun _ => noFaults) b mode tl t hhd
            (save_cache b (processItem noFaults mode t w).world) (p + 1) 0 hs2
          simpa [walkTracks, hp1.1, hsv] using hpre
        · have := hall t ht2
          simpa [walkTracks, hp1.1, hsv] using this
    · obtain ⟨hr2, hall⟩ := ih htl (processItem noFaults mode hd w).world (p + 1) (s + 1)
      constructor
      · simpa [walkTracks, hp1.1, hsv] using hr2
      · intro t ht
        rcases List.mem_cons.mp ht with rfl | ht2
        · have hpre := walkTracks_preserves_settled (fun _ => noFaults) b mode tl t hhd
            (processItem noFaults mode t w).world (p + 1) (s + 1) hp1.2
          simpa [walkTracks, hp1.1, hsv] using hpre
        · have := hall t ht2
          simpa [walkTracks, hp1.1, hsv] using this

theorem walkTracks_quiet (b : Bool) (mode : Mode) (l : List Track) :
    ∀ (w : World) (p s : Nat), (∀ t ∈ l, settled mode t w) →
      (walkTracks (fun _ => noFaults) b mode l w p s).raised = false ∧
      (walkTracks (fun _ => noFaults) b mode l w p s).world.remote = w.remote ∧
      (walkTracks (fun _ => noFaults) b mode l w p s).world.files = w.files ∧
      (walkTracks (fun _ => noFaults) b mode l w p s).world.cache = w.cache ∧
      (walkTracks (fun _ => noFaults) b mode l w p s).world.updatedTracks = w.updatedTracks := by
  induction l with
  | nil =>
    intro w p s _
    simp [walkTracks]
  | cons hd tl ih =>
    intro w p s hall
    obtain ⟨hr, e1, e2, e3, _, _, e6⟩ :=
      processItem_quiet_of_settled mode hd w (hall hd (List.mem_cons_self hd tl))
    have hall2 : ∀ t ∈ tl, settled mode t (processItem noFaults mode hd w).world := by
      intro t ht
      exact settled_congr mode t w _ (by rw [e2]) (by rw [e3]) (by rw [e1])
        (hall t (List.mem_cons_of_mem hd ht))
    by_cases hsv : CACHE_SAVE_INTERVAL ≤ s + 1
    · have hsst := save_cache_stores b (processItem noFaults mode hd w).world
      have hall3 : ∀ t ∈ tl, settled mode t (save_cache b (processItem noFaults mode hd w).world) := by
        intro t ht
        exact settled_congr mode t _ _ (by rw [hsst.2.1]) (by rw [hsst.2.2.1]) (by rw [hsst.1])
          (hall2 t ht)
      obtain ⟨hr2, q1, q2, q3, q4⟩ :=
        ih (save_cache b (processItem noFaults mode hd w).world) (p + 1) 0 hall3
      have hw : walkTracks (fun _ => noFaults) b mode (hd :: tl) w p s =
          walkTracks (fun _ => noFaults) b mode tl
            (save_cache b (processItem noFaults mode hd w).world) (p + 1) 0 := by
        simp [walkTracks, hr, hsv]
      rw [hw]
      exact ⟨hr2, q1.trans (hsst.1.trans e1), q2.trans (hsst.2.1.trans e2),
        q3.trans (hsst.2.2.1.trans e3), q4.trans (hsst.2.2.2.trans e6)⟩
    · obtain ⟨hr2, q1, q2, q3, q4⟩ := ih (processItem noFaults mode hd w).world (p + 1) (s + 1) hall2
      have hw : walkTracks (fun _ => noFaults) b mode (hd :: tl) w p s =
          walkTracks (fun _ => noFaults) b mode tl
            (processItem noFaults mode hd w).world (p + 1) (s + 1) := by
        simp [walkTracks, hr, hsv]
      rw [hw]
      exact ⟨hr2, q1.trans e1, q2.trans e2, q3.trans e3, q4.trans e6⟩

theorem walkLibraries_preserves_settled (ft : Track → Faults) (b : Bool) (mode : Mode)
    (libs : List (List Track)) (t : Track)
    (hoff : ∀ t2 ∈ libs.flatten, t.path ≠ t2.path ∧ t.id ≠ t2.id) :
    ∀ (w : World) (p s : Nat), settled mode t w →
      settled mode t (walkLibraries ft b mode libs w p s).world := by
  induction libs with
  | nil =>
    intro w p s hs
    simpa [walkLibraries] using hs
  | cons lib rest ih =>
    intro w p s hs
    have hoff1 : ∀ t2 ∈ lib, t.path ≠ t2.path ∧ t.id ≠ t2.id := by
      intro t2 ht2
      exact hoff t2 (by
        rw [List.flatten_cons, List.mem_append]
        exact Or.inl ht2)
    have hoff2 : ∀ t2 ∈ rest.flatten, t.path ≠ t2.path ∧ t.id ≠ t2.id := by
      intro t2 ht2
      rw [List.mem_flatten] at ht2
      obtain ⟨l2, hl2, ht2⟩ := ht2
      exact hoff t2 (by rw [List.mem_flatten]; exact ⟨l2, List.mem_cons_of_mem lib hl2, ht2⟩)
    have h1 := walkTracks_preserves_settled ft b mode lib t hoff1 w p s hs
    cases hr : (walkTracks ft b mode lib w p s).raised with
    | true => simpa [walkLibraries, hr] using h1
    | false =>
      have hrec := ih hoff2 (walkTracks ft b mode lib w p s).world
        (walkTracks ft b mode lib w p s).processed (walkTracks ft b mode lib w p s).since h1
      simpa [walkLibraries, hr] using hrec

theorem walkLibraries_settles (b : Bool) (mode : Mode) (libs : List (List Track)) :
    libs.flatten.Pairwise (fun a a2 => a.path ≠ a2.path ∧ a.id ≠ a2.id) →
    ∀ (w : World) (p s : Nat),
      (walkLibraries (fun _ => noFaults) b mode libs w p s).raised = false ∧
      ∀ t ∈ libs.flatten, settled mode t (walkLibraries (fun _ => noFaults) b mode libs w p s).world := by
  induction libs with
  | nil =>
    intro _ w p s
    simp [walkLibraries]
  | cons lib rest ih =>
    intro hpw w p s
    rw [List.flatten_cons, List.pairwise_append] at hpw
    obtain ⟨hp1, hp2, hcross⟩ := hpw
    obtain ⟨hr1, hall1⟩ := walkTracks_settles b mode lib hp1 w p s
    have hw : walkLibraries (fun _ => noFaults) b mode (lib :: rest) w p s =
        walkLibraries (fun _ => noFaults) b mode rest
          (walkTracks (fun _ => noFaults) b mode lib w p s).world
          (walkTracks (fun _ => noFaults) b mode lib w p s).processed
          (walkTracks (fun _ => noFaults) b mode lib w p s).since := by
      simp [walkLibraries, hr1]
    obtain ⟨hr2, hall2⟩ := ih hp2 (walkTracks (fun _ => noFaults) b mode lib w p s).world
      (walkTracks (fun _ => noFaults) b mode lib w p s).processed
      (walkTracks (fun _ => noFaults) b mode lib w p s).since
    rw [hw]
    refine ⟨hr2, ?_⟩
    intro t ht
    rw [List.flatten_cons, List.mem_append] at ht
    rcases ht with ht | ht
    · exact walkLibraries_preserves_settled (fun _ => noFaults) b mode rest t
        (fun t2 ht2 => hcross t ht t2 ht2) _ _ _ (hall1 t ht)
    · exact hall2 t ht

theorem walkLibraries_quiet (b : Bool) (mode : Mode) (libs : List (List Track)) :
    ∀ (w : World) (p s : Nat), (∀ t ∈ libs.flatten, settled mode t w) →
      (walkLibraries (fun _ => noFaults) b mode libs w p s).raised = false ∧
      (walkLibraries (fun _ => noFaults) b mode libs w p s).world.remote = w.remote ∧
      (walkLibraries (fun _ => noFaults) b mode libs w p s).world.files = w.files ∧
      (walkLibraries (fun _ => noFaults) b mode libs w p s).world.cache = w.cache ∧
      (walkLibraries (fun _ => noFaults) b mode libs w p s).world.updatedTracks = w.updatedTracks := by
  induction libs with
  | nil =>
    intro w p s _
    simp [walkLibraries]
  | cons lib rest ih =>
    intro w p s hall
    have hall1 : ∀ t ∈ lib, settled mode t w := by
      intro t ht
      exact hall t (by rw [List.flatten_cons, List.mem_append]; exact Or.inl ht)
    obtain ⟨hr1, e1, e2, e3, e4⟩ := walkTracks_quiet b mode lib w p s hall1
    have hall2 : ∀ t ∈ rest.flatten, settled mode t (walkTracks (fun _ => noFaults) b mode lib w p s).world := by
      intro t ht
      refine settled_congr mode t w _ (by rw [e2]) (by rw [e3]) (by rw [e1]) ?_
      exact hall t (by rw [List.flatten_cons, List.mem_append]; exact Or.inr ht)
    obtain ⟨hr2, q1, q2, q3, q4⟩ := ih (walkTracks (fun _ => noFaults) b mode lib w p s).world
      (walkTracks (fun _ => noFaults) b mode lib w p s).processed
      (walkTracks (fun _ => noFaults) b mode lib w p s).since hall2
    have hw : walkLibraries (fun _ => noFaults) b mode (lib :: rest) w p s =
        walkLibraries (fun _ => noFaults) b mode rest
          (walkTracks (fun _ => noFaults) b mode lib w p s).world
          (walkTracks (fun _ => noFaults) b mode lib w p s).processed
          (walkTracks (fun _ => noFaults) b mode lib w p s).since := by
      simp [walkLibraries, hr1]
    rw [hw]
    exact ⟨hr2, q1.trans e1, q2.trans e2, q3.trans e3, q4.trans e4⟩

/-- C5 counterexample: the claim quantifies over every library state, but
when two walked track items share one local file (items 1 and 3, rated 4
and 5 remotely, both stored in `/m/a.mp3`) a fault-free sync run
oscillates: the second run performs further local writes and appends
further UpdateRecords.  Likewise when two track items share one remote
item (item 1, fed from `/m/a.mp3` rated 5 and `/m/c.mp3` rated 7): a
second import run keeps flipping item 1's rating and appends further
UpdateRecords. -/
theorem mode_idempotent_cex :
    ((process_libraries (fun _ => noFaults) false Mode.sync [[exTrack1, exTrack1shared]]
        (process_libraries (fun _ => noFaults) false Mode.sync [[exTrack1, exTrack1shared]]
          exWorldDup).world).world.updatedTracks ≠
      (process_libraries (fun _ => noFaults) false Mode.sync [[exTrack1, exTrack1shared]]
        exWorldDup).world.updatedTracks) ∧
    ((process_libraries (fun _ => noFaults) false Mode.imp [[exTrack1, exTrack1sameId]]
        (process_libraries (fun _ => noFaults) false Mode.imp [[exTrack1, exTrack1sameId]]
          exWorldDupId).world).world.updatedTracks ≠
      (process_libraries (fun _ => noFaults) false Mode.imp [[exTrack1, exTrack1sameId]]
        exWorldDupId).world.updatedTracks) := by
  refine ⟨by decide, by decide⟩

/-- C5 (amended): for every mode and every library state in which no two
walked track items share a local file path or a remote item, running the
mode twice in succession with no external change to the remote catalog,
the local files, or the cache between runs produces zero remote writes,
zero local writes and zero UpdateRecords on the second run: the second
run leaves the remote catalog, the local files and the run's change log
exactly as the first run left them. -/
theorem mode_idempotent_second_run (mode : Mode) (libs : List (List Track)) (w : World)
    (hdist : libs.flatten.Pairwise (fun a a2 => a.path ≠ a2.path ∧ a.id ≠ a2.id)) :
    (process_libraries (fun _ => noFaults) false mode libs
        (process_libraries (fun _ => noFaults) false mode libs w).world).world.remote =
      (process_libraries (fun _ => noFaults) false mode libs w).world.remote ∧
    (process_libraries (fun _ => noFaults) false mode libs
        (process_libraries (fun _ => noFaults) false mode libs w).world).world.files =
      (process_libraries (fun _ => noFaults) false mode libs w).world.files ∧
    (process_libraries (fun _ => noFaults) false mode libs
        (process_libraries (fun _ => noFaults) false mode libs w).world).world.updatedTracks =
      (process_libraries (fun _ => noFaults) false mode libs w).world.updatedTracks := by
  obtain ⟨hr1, hall1⟩ := walkLibraries_settles false mode libs hdist w 0 0
  have hw1 : process_libraries (fun _ => noFaults) false mode libs w =
      { walkLibraries (fun _ => noFaults) false mode libs w 0 0 with
          world := save_cache false (walkLibraries (fun _ => noFaults) false mode libs w 0 0).world } := by
    simp [process_libraries, hr1]
  have hsst := save_cache_stores false (walkLibraries (fun _ => noFaults) false mode libs w 0 0).world
  have hall2 : ∀ t ∈ libs.flatten,
      settled mode t (save_cache false (walkLibraries (fun _ => noFaults) false mode libs w 0 0).world) := by
    intro t ht
    exact settled_congr mode t _ _ (by rw [hsst.2.1]) (by rw [hsst.2.2.1]) (by rw [hsst.1])
      (hall1 t ht)
  obtain ⟨hr2, q1, q2, _, q4⟩ := walkLibraries_quiet false mode libs
    (save_cache false (walkLibraries (fun _ => noFaults) false mode libs w 0 0).world) 0 0 hall2
  have hw2 : process_libraries (fun _ => noFaults) false mode libs
      (save_cache false (walkLibraries (fun _ => noFaults) false mode libs w 0 0).world) =
      { walkLibraries (fun _ => noFaults) false mode libs
          (save_cache false (walkLibraries (fun _ => noFaults) false mode libs w 0 0).world) 0 0 with
          world := save_cache false (walkLibraries (fun _ => noFaults) false mode libs
            (save_cache false (walkLibraries (fun _ => noFaults) false mode libs w 0 0).world) 0 0).world } := by
    simp [process_libraries, hr2]
  rw [hw1]
  simp only []
  rw [hw2]
  have hsst2 := save_cache_stores false (walkLibraries (fun _ => noFaults) false mode libs
    (save_cache false (walkLibraries (fun _ => noFaults) false mode libs w 0 0).world) 0 0).world
  exact ⟨hsst2.1.trans q1, (hsst2.2.1).trans q2, (hsst2.2.2.2).trans q4⟩

/-- Witness for `mode_idempotent_second_run`: two distinct tracks in two
libraries, sync mode — the second run repeats neither the local write for
`/m/a.mp3` nor the export-direction write for `/m/b.mp3`. -/
theorem mode_idempotent_second_run_witness :
    (process_libraries (fun _ => noFaults) false Mode.sync [[exTrack1], [exTrack2]]
        (process_libraries (fun _ => noFaults) false Mode.sync [[exTrack1], [exTrack2]]
          exWorld).world).world.remote =
      (process_libraries (fun _ => noFaults) false Mode.sync [[exTrack1], [exTrack2]]
        exWorld).world.remote ∧
    (process_libraries (fun _ => noFaults) false Mode.sync [[exTrack1], [exTrack2]]
        (process_libraries (fun _ => noFaults) false Mode.sync [[exTrack1], [exTrack2]]
          exWorld).world).world.files =
      (process_libraries (fun _ => noFaults) false Mode.sync [[exTrack1], [exTrack2]]
        exWorld).world.files ∧
    (process_libraries (fun _ => noFaults) false Mode.sync [[exTrack1], [exTrack2]]
        (process_libraries (fun _ => noFaults) false Mode.sync [[exTrack1], [exTrack2]]
          exWorld).world).world.updatedTracks =
      (process_libraries (fun _ => noFaults) false Mode.sync [[exTrack1], [exTrack2]]
        exWorld).world.updatedTracks :=
  mode_idempotent_second_run Mode.sync [[exTrack1], [exTrack2]] exWorld (by decide)

/-- C3 counterexample: the claim says a per-track exception is caught,
logged, and the walk continues.  On this concrete two-track library the
remote write for the first track raises: the walk aborts with the
exception propagating (`raised = true`), zero tracks are counted as
processed, and the second track's pending import write — which a solo run
of that track does perform — never happens. -/
theorem walk_continues_after_failure_cex :
    (process_libraries exFaults1 false Mode.imp [[exTrack1, exTrack2]] exWorldImp).raised = true ∧
    (process_libraries exFaults1 false Mode.imp [[exTrack1, exTrack2]] exWorldImp).processed = 0 ∧
    (process_libraries exFaults1 false Mode.imp [[exTrack1, exTrack2]] exWorldImp).world.remote
      exTrack2.id = none ∧
    (process_libraries exFaults1 false Mode.imp [[exTrack2]] exWorldImp).world.remote
      exTrack2.id = some 2 := by
  refine ⟨by decide, by decide, by decide, by decide⟩

/-- C3 (amended): an exception raised while processing one track is not
caught at the per-track boundary: it propagates out of
`_process_libraries`, aborting the walk — the remaining tracks of the
current library and all following libraries are left unprocessed, and the
final cache flush is skipped.  (Only library-section resolution failures
are caught and skipped.) -/
theorem track_exception_aborts_walk (ft : Track → Faults) (b : Bool) (mode : Mode)
    (t : Track) (rest : List Track) (libs : List (List Track)) (w : World)
    (hr : (processItem (ft t) mode t w).raised = true) :
    process_libraries ft b mode ((t :: rest) :: libs) w =
      { world := (processItem (ft t) mode t w).world, processed := 0, since := 0,
        raised := true } := by
  simp [process_libraries, walkLibraries, walkTracks, hr]

/-- Witness for `track_exception_aborts_walk`: the concrete aborted run
of the counterexample world ends exactly at the failing track's state. -/
theorem track_exception_aborts_walk_witness :
    process_libraries exFaults1 false Mode.imp [[exTrack1, exTrack2]] exWorldImp =
      { world := (processItem (exFaults1 exTrack1) Mode.imp exTrack1 exWorldImp).world,
        processed := 0, since := 0, raised := true } :=
  track_exception_aborts_walk exFaults1 false Mode.imp exTrack1 [exTrack2] [] exWorldImp
    (by decide)

/-- C6 counterexample: the claim says any stat failure after the
existence check makes the track a skipped no-op with the failure logged
at low severity.  On this concrete input a non-`FileNotFoundError` stat
failure is not caught at all — the exception propagates out of
`_process_item` (`raised = true`) — and a `FileNotFoundError` produces a
bare `return` that logs nothing: the log holds only the track banner
emitted before the stat. -/
theorem stat_failure_skip_cex :
    (processItem { statFail := some StatErr.other } Mode.sync exTrack1 exWorld).raised = true ∧
    (processItem { statFail := some StatErr.fileNotFound } Mode.sync exTrack1 exWorld).world.logs =
      [LogEntry.info "Track: T1"] ∧
    (processItem { statFail := some StatErr.fileNotFound } Mode.sync exTrack1 exWorld).raised = false := by
  refine ⟨by decide, by decide, by decide⟩

/-- C6 (amended): if the stat raises `FileNotFoundError` after the
existence check, the track is skipped as a silent no-op — no log line
beyond the track banner, no cache mutation, no local or remote write, no
UpdateRecord; any other stat failure is not caught and propagates out of
`_process_item` (equally without mutating anything). -/
theorem stat_failure_behavior (f : Faults) (mode : Mode) (t : Track) (w : World)
    (file : LocalFile) (hfile : w.files t.path = some file)
    (hext : suffixLower t.path ∈ _SUPPORTED_EXTENSIONS) :
    (f.statFail = some StatErr.fileNotFound →
      processItem f mode t w =
        { world := { w with logs := w.logs ++ [LogEntry.info ("Track: " ++ t.title)] },
          raised := false }) ∧
    (f.statFail = some StatErr.other →
      processItem f mode t w =
        { world := { w with logs := w.logs ++ [LogEntry.info ("Track: " ++ t.title)] },
          raised := true }) := by
  constructor <;> intro hsf <;> simp [processItem, hfile, hext, hsf]

/-- Witness for `stat_failure_behavior`: on a concrete world a
`FileNotFoundError` stat produces exactly the banner-only silent skip. -/
theorem stat_failure_behavior_witness :
    processItem { statFail := some StatErr.fileNotFound } Mode.exp exTrack2 exWorld =
      { world := { exWorld with logs := exWorld.logs ++ [LogEntry.info ("Track: " ++ exTrack2.title)] },
        raised := false } :=
  (stat_failure_behavior { statFail := some StatErr.fileNotFound } Mode.exp exTrack2 exWorld
    { mtime := 20, rating := some 2 } (by decide) (by decide)).1 rfl

end PlexSync
